import Mathlib

/-!
Shallow embedding of the arbeitnow job-analyzer pipeline (src/main.py,
src/config.py) and proofs of the frozen specification claims.

External collaborators (Selenium page fetcher, OpenAI completion client,
Python's `json.loads`) are modelled as function parameters; everything else
is translated directly from the source.
-/

namespace ArbeitNow

/-! ## Python string primitives

Python `str` is modelled as Lean `String`; the handful of `str` methods the
source uses (`strip`, `startswith`, `endswith`, slicing `[7:]` / `[:-3]`,
`'; '.join`) are defined below on the character list. -/

/-- ASCII whitespace recognised by Python's `str.strip()`. -/
def pyIsSpace (c : Char) : Bool :=
  c == ' ' || c == '\t' || c == '\n' || c == '\r' || c == '\x0b' || c == '\x0c'

/-- `str.strip()` on the underlying character list. -/
def pyStripList (l : List Char) : List Char :=
  ((l.dropWhile pyIsSpace).reverse.dropWhile pyIsSpace).reverse

/-- Python `s.strip()`. -/
def pyStrip (s : String) : String :=
  ⟨pyStripList s.data⟩

/-- Python `s.startswith(p)`. -/
def pyStartswith (s p : String) : Bool :=
  p.data.isPrefixOf s.data

/-- Python `s.endswith(p)`. -/
def pyEndswith (s p : String) : Bool :=
  p.data.isSuffixOf s.data

/-- Python slice `s[n:]`. -/
def pyDropLeft (s : String) (n : Nat) : String :=
  ⟨s.data.drop n⟩

/-- Python slice `s[:-n]` (for `n > 0`): drop the last `n` characters. -/
def pyDropRight (s : String) (n : Nat) : String :=
  ⟨(s.data.reverse.drop n).reverse⟩

/-! ## Data model -/

/-- A job record as produced by `extract_basic_job_info` (src/main.py 246-253):
identity fields plus a `description` that is `None` until Phase 3 attaches
one. -/
structure BasicJobRecord where
  search_category : String
  title : String
  company : String
  location : String
  url : String
  description : Option String
deriving DecidableEq, Repr

/-- A JSON value, the result of Python's `json.loads` on the oracle's
response text.  Numbers are modelled as integers (the prompt demands an
integer score). -/
inductive JVal where
  | jnull : JVal
  | jbool : Bool → JVal
  | jnum : Int → JVal
  | jstr : String → JVal
  | jarr : List JVal → JVal
  | jobj : List (String × JVal) → JVal

/-- The record built by `analyze_with_gpt` (src/main.py 158-169) /
`create_fallback_analysis` (178-191).  Python is dynamically typed, so the
fields copied straight out of the parsed JSON (`match_score`,
`german_required`, `recommendation`) hold an arbitrary JSON value, while
`key_matches` / `missing_skills` are strings produced by `'; '.join`. -/
structure AnalyzedJobRecord where
  search_category : String
  title : String
  company : String
  location : String
  url : String
  match_score : JVal
  german_required : JVal
  key_matches : String
  missing_skills : String
  recommendation : JVal

/-- Python dict lookup `d[key]` on a parsed JSON object. -/
def jlookup (fields : List (String × JVal)) (key : String) : Option JVal :=
  match fields with
  | [] => none
  | (k, v) :: rest => if k = key then some v else jlookup rest key

/-! ## Match Analyzer (`analyze_with_gpt`, src/main.py 82-191) -/

/-- The `required_fields` list of src/main.py 152-153. -/
def required_fields : List String :=
  ["match_score", "german_required", "key_matches", "missing_skills", "recommendation"]

/-- Checks a parsed JSON array consists solely of strings and extracts them;
`none` models the `TypeError` that `'; '.join` raises on a non-string
element. -/
def join_strings (xs : List JVal) : Option (List String) :=
  match xs with
  | [] => some []
  | .jstr s :: rest => (join_strings rest).map (fun l => s :: l)
  | _ :: _ => none

/-- Python `sep.join(v)` applied to a JSON value (src/main.py 166-167).
Joining an array requires every element to be a string; a string is joined
character-wise; a dict joins its keys; anything else raises (`none`). -/
def pyJoin (sep : String) (v : JVal) : Option String :=
  match v with
  | .jarr xs => (join_strings xs).map (String.intercalate sep)
  | .jstr s => some (String.intercalate sep (s.data.map (fun c => String.mk [c])))
  | .jobj fields => some (String.intercalate sep (fields.map Prod.fst))
  | _ => none

/-- The code-fence recovery of src/main.py 144-149: strip, remove a leading
three-backtick json fence and a trailing three-backtick fence, strip
again. -/
def clean_response (s : String) : String :=
  let c := pyStrip s
  let c := if pyStartswith c "```json" then pyDropLeft c 7 else c
  let c := if pyEndswith c "```" then pyDropRight c 3 else c
  pyStrip c

/-- src/main.py 141-150: try `json.loads` directly, and on failure retry on
the fence-stripped text.  `parse` is the external `json.loads`
(`none` = `JSONDecodeError`). -/
def parse_response (parse : String → Option JVal) (response_text : String) : Option JVal :=
  match parse response_text with
  | some v => some v
  | none => parse (clean_response response_text)

/-- src/main.py 152-169: the required-field check and record construction.
`none` models any exception on this stretch (missing field / `in` or
indexing on a non-dict / `join` on a non-list-of-strings), all of which are
caught by the `except` at line 174. -/
def analyze_from_result (result : JVal) (job : BasicJobRecord) : Option AnalyzedJobRecord :=
  match result with
  | .jobj fields =>
    if required_fields.all (fun f => (jlookup fields f).isSome) then
      match jlookup fields "match_score", jlookup fields "german_required",
            jlookup fields "key_matches", jlookup fields "missing_skills",
            jlookup fields "recommendation" with
      | some ms, some gr, some km, some mi, some rc =>
        match pyJoin "; " km, pyJoin "; " mi with
        | some kmS, some miS =>
          some { search_category := job.search_category, title := job.title,
                 company := job.company, location := job.location, url := job.url,
                 match_score := ms, german_required := gr,
                 key_matches := kmS, missing_skills := miS, recommendation := rc }
        | _, _ => none
      | _, _, _, _, _ => none
    else none
  | _ => none

/-- The body of the `try` block of `analyze_with_gpt` (src/main.py 92-172).
`oracle` is the outcome of the external completion call
(`.error` = the call raised); its `.ok` payload is the raw response text,
stripped at line 139 before parsing.  `none` = an exception reached
line 174. -/
def try_analyze (parse : String → Option JVal) (oracle : Except Unit String)
    (job : BasicJobRecord) : Option AnalyzedJobRecord :=
  match oracle with
  | .error _ => none
  | .ok response =>
    match parse_response parse (pyStrip response) with
    | none => none
    | some result => analyze_from_result result job

/-- src/main.py 178-191. -/
def create_fallback_analysis (job : BasicJobRecord) : AnalyzedJobRecord :=
  { search_category := job.search_category, title := job.title,
    company := job.company, location := job.location, url := job.url,
    match_score := .jnum 0, german_required := .jstr "No",
    key_matches := "Analysis failed", missing_skills := "Analysis failed",
    recommendation := .jstr "Analysis failed - please review manually" }

/-- `analyze_with_gpt` (src/main.py 82-176): the `try` body, with every
exception routed to `create_fallback_analysis`. -/
def analyze_with_gpt (parse : String → Option JVal) (oracle : Except Unit String)
    (job : BasicJobRecord) : AnalyzedJobRecord :=
  match try_analyze parse oracle job with
  | some r => r
  | none => create_fallback_analysis job

/-! ## Description Fetcher (`extract_job_description`, src/main.py 193-226) -/

/-- The sentinel string returned at src/main.py 225. -/
def fail_sentinel : String := "Failed to fetch description"

/-- The retry loop of src/main.py 204-226.  `fetch i` is the outcome of the
whole fetch-and-extract attempt with loop index `i` (`none` = some exception
was raised).  Returns the number of attempts actually made together with the
function's result; the result is `none` exactly when the `for` body never
runs and the Python function falls off the end, returning `None`. -/
def extract_go (fetch : Nat → Option String) (max_retries : Int) :
    Nat → Nat → Nat × Option String
  | _, 0 => (0, none)
  | attempt, n + 1 =>
    match fetch attempt with
    | some d => (1, some d)
    | none =>
      if (attempt : Int) = max_retries - 1 then (1, some fail_sentinel)
      else
        let r := extract_go fetch max_retries (attempt + 1) n
        (r.1 + 1, r.2)

/-- Attempts made and result of `extract_job_description(url, max_retries)`:
`range(max_retries)` iterates `max_retries.toNat` times starting at
attempt 0. -/
def extract_full (fetch : Nat → Option String) (max_retries : Int) : Nat × Option String :=
  extract_go fetch max_retries 0 max_retries.toNat

/-- `extract_job_description` (src/main.py 193-226), abstracted over the
per-attempt outcome. -/
def extract_job_description (fetch : Nat → Option String) (max_retries : Int) :
    Option String :=
  (extract_full fetch max_retries).2

/-! ## Deduplicator (`remove_duplicates`, src/main.py 294-305) -/

/-- Loop of src/main.py 299-302 with the `seen_urls` set threaded through
(membership in a Python set = list membership here). -/
def remove_duplicates_go (seen : List String) : List BasicJobRecord → List BasicJobRecord
  | [] => []
  | job :: rest =>
    if job.url ∈ seen then remove_duplicates_go seen rest
    else job :: remove_duplicates_go (job.url :: seen) rest

/-- `remove_duplicates` (src/main.py 294-305). -/
def remove_duplicates (jobs : List BasicJobRecord) : List BasicJobRecord :=
  remove_duplicates_go [] jobs

/-! ## Orchestrator (`process_jobs`, src/main.py 307-379) -/

/-- Phase-1 page loop for one category (src/main.py 317-324).  `scrape page`
is the result of `scrape_page(page, category)`; the returned list records,
in order, each page number actually fetched together with the records it
yielded.  A page yielding zero records is still fetched (it appears last)
but stops the loop (`if not page_jobs: break`). -/
def harvest_category_go (scrape : Nat → List BasicJobRecord) :
    Nat → Nat → List (Nat × List BasicJobRecord)
  | _, 0 => []
  | page, n + 1 =>
    if (scrape page).isEmpty then [(page, scrape page)]
    else (page, scrape page) :: harvest_category_go scrape (page + 1) n

/-- Pages fetched for one category: `for page in range(1, max_pages + 1)`. -/
def harvest_category (scrape : Nat → List BasicJobRecord) (max_pages : Nat) :
    List (Nat × List BasicJobRecord) :=
  harvest_category_go scrape 1 max_pages

/-- Python truthiness test `not description` of src/main.py 340 on the
fetcher's result (`none` = Python `None`). -/
def py_skip (description : Option String) : Bool :=
  match description with
  | none => true
  | some s => s = ""

/-- Phase-3 body for one unique job (src/main.py 338-348): fetch the
description, skip the job if the result is falsy, otherwise attach the
description and analyze. -/
def process_one_job (fetchD : String → Option String)
    (analyzeF : BasicJobRecord → AnalyzedJobRecord) (job : BasicJobRecord) :
    Option AnalyzedJobRecord :=
  match fetchD job.url with
  | none => none
  | some d =>
    if d = "" then none
    else some (analyzeF { job with description := some d })

/-- Phase 3 over the deduplicated list (src/main.py 332-354). -/
def phase3 (fetchD : String → Option String)
    (analyzeF : BasicJobRecord → AnalyzedJobRecord) (jobs : List BasicJobRecord) :
    List AnalyzedJobRecord :=
  jobs.filterMap (process_one_job fetchD analyzeF)

/-- The 1-based sequence column `df.insert(0, 'S.No', range(1, len(df) + 1))`
(src/main.py 359): pair each analyzed record with its row number. -/
def number_rows : Nat → List AnalyzedJobRecord → List (Nat × AnalyzedJobRecord)
  | _, [] => []
  | n, r :: rest => (n, r) :: number_rows (n + 1) rest

/-- Phase 4 persistence guard (src/main.py 357-360, with the stray
indentation of line 361 corrected): write no report when nothing was
analyzed, otherwise the report rows are the analyzed records numbered
from 1. -/
def build_report (analyzed : List AnalyzedJobRecord) :
    Option (List (Nat × AnalyzedJobRecord)) :=
  if analyzed.isEmpty then none
  else some (number_rows 1 analyzed)

/-- The claimed range constraint on a report row's score. -/
def score_in_range (v : JVal) : Prop :=
  ∃ n : Int, v = .jnum n ∧ 0 ≤ n ∧ n ≤ 100

/-! ## Concrete records used by witnesses -/

def job_a : BasicJobRecord := ⟨"strategy", "t1", "co", "Berlin", "u1", none⟩

def job_a2 : BasicJobRecord := ⟨"strategy", "t2", "co", "Berlin", "u1", none⟩

def job_b : BasicJobRecord := ⟨"product", "t3", "co", "Munich", "u2", none⟩

def jobs0 : List BasicJobRecord := [job_a, job_a2, job_b]

/-! ## Description Fetcher: helper lemmas -/

/-- When every attempt fails and at least one iteration remains, the loop
makes exactly `n` more attempts and returns the sentinel, provided the loop
entered with `attempt + n = max_retries`. -/
theorem extract_go_allfail (fetch : Nat → Option String) (mr : Int)
    (hfail : ∀ i, fetch i = none) :
    ∀ (n attempt : Nat), 1 ≤ n → (attempt : Int) + n = mr →
      extract_go fetch mr attempt n = (n, some fail_sentinel) := by
  intro n
  induction n with
  | zero => intro attempt h _; omega
  | succ m ih =>
    intro attempt _ hsum
    unfold extract_go
    rw [hfail attempt]
    by_cases hlast : (attempt : Int) = mr - 1
    · simp only [if_pos hlast]
      have hm : m = 0 := by omega
      subst hm; rfl
    · simp only [if_neg hlast]
      have hm : 1 ≤ m := by omega
      have hsum2 : ((attempt + 1 : Nat) : Int) + m = mr := by push_cast; push_cast at hsum; omega
      rw [ih (attempt + 1) hm hsum2]

/-- Whatever the attempts return, the loop yields a string (never falls off
the end) as long as it enters with `attempt + n = max_retries` and `n ≥ 1`. -/
theorem extract_go_isSome (fetch : Nat → Option String) (mr : Int) :
    ∀ (n attempt : Nat), 1 ≤ n → (attempt : Int) + n = mr →
      ((extract_go fetch mr attempt n).2).isSome := by
  intro n
  induction n with
  | zero => intro attempt h _; omega
  | succ m ih =>
    intro attempt _ hsum
    unfold extract_go
    cases hf : fetch attempt with
    | some d => rfl
    | none =>
      by_cases hlast : (attempt : Int) = mr - 1
      · simp only [if_pos hlast]; rfl
      · simp only [if_neg hlast]
        have hm : 1 ≤ m := by omega
        have hsum2 : ((attempt + 1 : Nat) : Int) + m = mr := by push_cast; push_cast at hsum; omega
        exact ih (attempt + 1) hm hsum2

/-- C2: with `max_retries ≥ 1` and every fetch attempt failing,
`extract_job_description` makes exactly `max_retries` attempts and returns
exactly the sentinel string "Failed to fetch description", without raising
(it is a total function returning `some` of the sentinel). -/
theorem fetch_exhaustion_spec (fetch : Nat → Option String) (mr : Int)
    (hmr : 1 ≤ mr) (hfail : ∀ i, fetch i = none) :
    extract_full fetch mr = (mr.toNat, some fail_sentinel) := by
  unfold extract_full
  have h1 : 1 ≤ mr.toNat := by omega
  have h2 : ((0 : Nat) : Int) + mr.toNat = mr := by omega
  exact extract_go_allfail fetch mr hfail mr.toNat 0 h1 h2

/-- Witness for C2 at `max_retries = 3` and an always-failing fetcher. -/
theorem fetch_exhaustion_spec_witness :
    extract_full (fun _ => none) 3 = (3, some fail_sentinel) :=
  fetch_exhaustion_spec (fun _ => none) 3 (by norm_num) (fun _ => rfl)

/-- C10: with `max_retries ≤ 0` the retry loop never runs and
`extract_job_description` returns Python `None` (modelled `none`); the
always-a-string guarantee holds exactly under `max_retries ≥ 1`; and of the
two possible results of a wholly failed fetch, only `None` triggers the
orchestrator's skip branch `if not description` — the sentinel does not. -/
theorem zero_retries_spec (fetch : Nat → Option String) (mr : Int) :
    (mr ≤ 0 → extract_job_description fetch mr = none) ∧
    (1 ≤ mr → (extract_job_description fetch mr).isSome) ∧
    ((∀ i, fetch i = none) → mr ≤ 0 → py_skip (extract_job_description fetch mr) = true) ∧
    ((∀ i, fetch i = none) → 1 ≤ mr → py_skip (extract_job_description fetch mr) = false) := by
  have hzero : mr ≤ 0 → extract_job_description fetch mr = none := by
    intro h
    unfold extract_job_description extract_full
    have ht : mr.toNat = 0 := by omega
    rw [ht]
    rfl
  refine ⟨hzero, ?_, ?_, ?_⟩
  · intro h
    unfold extract_job_description extract_full
    exact extract_go_isSome fetch mr mr.toNat 0 (by omega) (by omega)
  · intro _ h
    rw [hzero h]
    rfl
  · intro hfail h
    unfold extract_job_description extract_full
    rw [extract_go_allfail fetch mr hfail mr.toNat 0 (by omega) (by omega)]
    show py_skip (some fail_sentinel) = false
    decide

/-- Witness for C10 at `max_retries = 0` and `max_retries = 2` with an
always-failing fetcher. -/
theorem zero_retries_spec_witness :
    extract_job_description (fun _ => none) 0 = none ∧
    (extract_job_description (fun _ => none) 2).isSome ∧
    py_skip (extract_job_description (fun _ => none) 0) = true ∧
    py_skip (extract_job_description (fun _ => none) 2) = false :=
  ⟨(zero_retries_spec (fun _ => none) 0).1 (by norm_num),
   (zero_retries_spec (fun _ => none) 2).2.1 (by norm_num),
   (zero_retries_spec (fun _ => none) 0).2.2.1 (fun _ => rfl) (by norm_num),
   (zero_retries_spec (fun _ => none) 2).2.2.2 (fun _ => rfl) (by norm_num)⟩

/-! ## Deduplicator: helper lemmas -/

theorem rd_go_sublist (l : List BasicJobRecord) :
    ∀ seen, List.Sublist (remove_duplicates_go seen l) l := by
  induction l with
  | nil => intro seen; exact List.Sublist.refl []
  | cons j rest ih =>
    intro seen
    unfold remove_duplicates_go
    by_cases h : j.url ∈ seen
    · rw [if_pos h]; exact (ih seen).cons j
    · rw [if_neg h]; exact (ih (j.url :: seen)).cons₂ j

theorem rd_go_not_seen (l : List BasicJobRecord) :
    ∀ seen j, j ∈ remove_duplicates_go seen l → j.url ∉ seen := by
  induction l with
  | nil => intro seen j h; simp [remove_duplicates_go] at h
  | cons x rest ih =>
    intro seen j h
    unfold remove_duplicates_go at h
    by_cases hx : x.url ∈ seen
    · rw [if_pos hx] at h; exact ih seen j h
    · rw [if_neg hx] at h
      rcases List.mem_cons.mp h with rfl | h2
      · exact hx
      · intro hj
        exact ih _ j h2 (List.mem_cons_of_mem _ hj)

theorem rd_go_nodup (l : List BasicJobRecord) :
    ∀ seen, ((remove_duplicates_go seen l).map (fun j => j.url)).Nodup := by
  induction l with
  | nil => intro seen; simp [remove_duplicates_go]
  | cons x rest ih =>
    intro seen
    unfold remove_duplicates_go
    by_cases hx : x.url ∈ seen
    · rw [if_pos hx]; exact ih seen
    · rw [if_neg hx]
      simp only [List.map_cons, List.nodup_cons]
      refine ⟨?_, ih _⟩
      intro hmem
      rcases List.mem_map.mp hmem with ⟨j, hj, hurl⟩
      exact rd_go_not_seen rest _ j hj (by rw [hurl]; exact List.mem_cons_self _ _)

theorem rd_go_covers (l : List BasicJobRecord) :
    ∀ seen j, j ∈ l → j.url ∉ seen →
      ∃ k ∈ remove_duplicates_go seen l, k.url = j.url := by
  induction l with
  | nil => intro seen j h; exact absurd h (List.not_mem_nil j)
  | cons x rest ih =>
    intro seen j hmem hns
    unfold remove_duplicates_go
    by_cases hx : x.url ∈ seen
    · rw [if_pos hx]
      rcases List.mem_cons.mp hmem with rfl | h2
      · exact absurd hx hns
      · exact ih seen j h2 hns
    · rw [if_neg hx]
      by_cases hur : j.url = x.url
      · exact ⟨x, List.mem_cons_self _ _, hur.symm⟩
      · rcases List.mem_cons.mp hmem with rfl | h2
        · exact absurd rfl hur
        · have hns2 : j.url ∉ x.url :: seen := by
            intro hc
            rcases List.mem_cons.mp hc with h | h
            · exact hur h
            · exact hns h
          rcases ih _ j h2 hns2 with ⟨k, hk, hke⟩
          exact ⟨k, List.mem_cons_of_mem _ hk, hke⟩

theorem rd_go_first (l : List BasicJobRecord) :
    ∀ seen j, j ∈ remove_duplicates_go seen l →
      l.find? (fun x => x.url == j.url) = some j := by
  induction l with
  | nil => intro seen j h; simp [remove_duplicates_go] at h
  | cons x rest ih =>
    intro seen j h
    unfold remove_duplicates_go at h
    by_cases hx : x.url ∈ seen
    · rw [if_pos hx] at h
      have hb : (x.url == j.url) = false := by
        cases hbe : x.url == j.url
        · rfl
        · exact absurd ((eq_of_beq hbe) ▸ hx) (rd_go_not_seen rest seen j h)
      simp only [List.find?_cons, hb]
      exact ih seen j h
    · rw [if_neg hx] at h
      rcases List.mem_cons.mp h with rfl | h2
      · have hb : (j.url == j.url) = true := by simp
        simp only [List.find?_cons, hb]
      · have hnotin : j.url ∉ x.url :: seen := rd_go_not_seen rest _ j h2
        have hb : (x.url == j.url) = false := by
          cases hbe : x.url == j.url
          · rfl
          · exact absurd ((eq_of_beq hbe) ▸ List.mem_cons_self _ _) hnotin
        simp only [List.find?_cons, hb]
        exact ih _ j h2

/-- C5: `remove_duplicates` returns the subsequence of first occurrences of
each URL in input order — a sublist of the input (hence records are
unmodified, relative order preserved, and the output is no longer than the
input), with pairwise-distinct URLs, covering every input URL, and each
surviving record being the first input record carrying its URL; it is a
total (pure) function. -/
theorem remove_duplicates_spec (jobs : List BasicJobRecord) :
    List.Sublist (remove_duplicates jobs) jobs ∧
    (remove_duplicates jobs).length ≤ jobs.length ∧
    ((remove_duplicates jobs).map (fun j => j.url)).Nodup ∧
    (∀ j ∈ jobs, ∃ k ∈ remove_duplicates jobs, k.url = j.url) ∧
    (∀ j ∈ remove_duplicates jobs, jobs.find? (fun x => x.url == j.url) = some j) := by
  refine ⟨rd_go_sublist jobs [], (rd_go_sublist jobs []).length_le, rd_go_nodup jobs [],
    ?_, fun j hj => rd_go_first jobs [] j hj⟩
  intro j hj
  exact rd_go_covers jobs [] j hj (List.not_mem_nil _)

/-- Witness for C5 on a concrete three-record list with one duplicate URL. -/
theorem remove_duplicates_spec_witness :
    List.Sublist (remove_duplicates jobs0) jobs0 ∧
    (∃ k ∈ remove_duplicates jobs0, k.url = job_a2.url) ∧
    jobs0.find? (fun x => x.url == job_b.url) = some job_b :=
  ⟨(remove_duplicates_spec jobs0).1,
   (remove_duplicates_spec jobs0).2.2.2.1 job_a2 (by decide),
   (remove_duplicates_spec jobs0).2.2.2.2 job_b (by decide)⟩

/-! ## Orchestrator pagination: helper lemmas -/

theorem hc_go_succ (scrape : Nat → List BasicJobRecord) (page n : Nat) :
    harvest_category_go scrape page (n + 1)
      = if (scrape page).isEmpty then [(page, scrape page)]
        else (page, scrape page) :: harvest_category_go scrape (page + 1) n :=
  rfl

theorem hc_go_succ_pos {scrape : Nat → List BasicJobRecord} {page n : Nat}
    (h : (scrape page).isEmpty = true) :
    harvest_category_go scrape page (n + 1) = [(page, scrape page)] := by
  rw [hc_go_succ, if_pos h]

theorem hc_go_succ_neg {scrape : Nat → List BasicJobRecord} {page n : Nat}
    (h : (scrape page).isEmpty = false) :
    harvest_category_go scrape page (n + 1)
      = (page, scrape page) :: harvest_category_go scrape (page + 1) n := by
  rw [hc_go_succ, if_neg]
  rw [h]
  exact Bool.false_ne_true

/-- Invariants of the page loop, generalised over the starting page. -/
theorem hc_go_spec (scrape : Nat → List BasicJobRecord) :
    ∀ (n page : Nat),
      (harvest_category_go scrape page n).length ≤ n ∧
      (harvest_category_go scrape page n).map Prod.fst
        = List.range' page (harvest_category_go scrape page n).length ∧
      (∀ i pr, i + 1 < (harvest_category_go scrape page n).length →
          (harvest_category_go scrape page n)[i]? = some pr → pr.2 ≠ []) ∧
      (∀ i pr, (harvest_category_go scrape page n)[i]? = some pr →
          pr.2 = scrape (page + i)) := by
  intro n
  induction n with
  | zero =>
    intro page
    refine ⟨Nat.le_refl 0, rfl, ?_, ?_⟩
    · intro i pr _ hpr
      simp [harvest_category_go] at hpr
    · intro i pr hpr
      simp [harvest_category_go] at hpr
  | succ m ih =>
    intro page
    cases hp : (scrape page).isEmpty with
    | true =>
      rw [hc_go_succ_pos hp]
      refine ⟨by simp, rfl, ?_, ?_⟩
      · intro i pr hlt _
        simp at hlt
      · intro i pr hpr
        match i with
        | 0 =>
          simp at hpr
          rw [← hpr]
          rfl
        | k + 1 => simp at hpr
    | false =>
      rw [hc_go_succ_neg hp]
      obtain ⟨ih1, ih2, ih3, ih4⟩ := ih (page + 1)
      refine ⟨?_, ?_, ?_, ?_⟩
      · simpa using Nat.succ_le_succ ih1
      · simp only [List.map_cons, List.length_cons, List.range'_succ]
        rw [ih2]
      · intro i pr hlt hpr
        match i with
        | 0 =>
          simp at hpr
          rw [← hpr]
          simp only [ne_eq]
          intro hc
          rw [← List.isEmpty_iff] at hc
          rw [hc] at hp
          exact Bool.false_ne_true hp.symm
        | k + 1 =>
          simp only [List.getElem?_cons_succ] at hpr
          simp only [List.length_cons] at hlt
          exact ih3 k pr (by omega) hpr
      · intro i pr hpr
        match i with
        | 0 =>
          simp at hpr
          rw [← hpr]
          rfl
        | k + 1 =>
          simp only [List.getElem?_cons_succ] at hpr
          rw [ih4 k pr hpr]
          congr 1
          omega

/-- C6: for any per-page scrape outcome and `max_pages ≥ 1`, the category
loop fetches pages `1, 2, ...` in order, fetches at most `max_pages` pages,
every fetched page except the last yielded records (so nothing is fetched
past the first empty page), and each fetched page's records are exactly what
`scrape_page` returned for it. -/
theorem pagination_spec (scrape : Nat → List BasicJobRecord) (m : Nat) (_hm : 1 ≤ m) :
    (harvest_category scrape m).length ≤ m ∧
    (harvest_category scrape m).map Prod.fst
      = List.range' 1 (harvest_category scrape m).length ∧
    (∀ i pr, i + 1 < (harvest_category scrape m).length →
        (harvest_category scrape m)[i]? = some pr → pr.2 ≠ []) ∧
    (∀ i pr, (harvest_category scrape m)[i]? = some pr → pr.2 = scrape (1 + i)) :=
  hc_go_spec scrape m 1

/-- A concrete scrape outcome for the C6 witness: pages 1 and 2 yield one
record each, page 3 is empty. -/
def scrape0 : Nat → List BasicJobRecord :=
  fun p => if p ≤ 2 then [job_a] else []

/-- Witness for C6: with `max_pages = 5` and `scrape0`, exactly pages 1-3
are fetched, in order. -/
theorem pagination_spec_witness :
    (harvest_category scrape0 5).length ≤ 5 ∧
    (harvest_category scrape0 5).map Prod.fst
      = List.range' 1 (harvest_category scrape0 5).length ∧
    ((1, scrape0 1) : Nat × List BasicJobRecord).2 ≠ [] ∧
    ((3, scrape0 3) : Nat × List BasicJobRecord).2 = scrape0 (1 + 2) :=
  ⟨(pagination_spec scrape0 5 (by norm_num)).1,
   (pagination_spec scrape0 5 (by norm_num)).2.1,
   (pagination_spec scrape0 5 (by norm_num)).2.2.1 0 (1, scrape0 1) (by decide) (by decide),
   (pagination_spec scrape0 5 (by norm_num)).2.2.2 2 (3, scrape0 3) (by decide)⟩

/-! ## Report numbering: helper lemmas -/

theorem number_rows_length (l : List AnalyzedJobRecord) :
    ∀ n, (number_rows n l).length = l.length := by
  induction l with
  | nil => intro n; rfl
  | cons r rest ih => intro n; simp [number_rows, ih]

theorem number_rows_fst (l : List AnalyzedJobRecord) :
    ∀ n, (number_rows n l).map Prod.fst = List.range' n l.length := by
  induction l with
  | nil => intro n; rfl
  | cons r rest ih =>
    intro n
    simp only [number_rows, List.map_cons, List.length_cons, List.range'_succ]
    rw [ih]

theorem number_rows_snd (l : List AnalyzedJobRecord) :
    ∀ n, (number_rows n l).map Prod.snd = l := by
  induction l with
  | nil => intro n; rfl
  | cons r rest ih => intro n; simp [number_rows, ih]

theorem number_rows_mem_snd (l : List AnalyzedJobRecord) :
    ∀ n p, p ∈ number_rows n l → p.2 ∈ l := by
  induction l with
  | nil => intro n p h; simp [number_rows] at h
  | cons r rest ih =>
    intro n p h
    rcases List.mem_cons.mp h with rfl | h2
    · exact List.mem_cons_self _ _
    · exact List.mem_cons_of_mem _ (ih (n + 1) p h2)

/-- C9 (stated of the intended Phase-4 block, src/main.py 356-360; the
shipped file mis-indents line 361, see the claim record): with zero analyzed
jobs no report is built; with `N ≥ 1` analyzed jobs the report has exactly
`N` rows, the first column holds `1..N` in order, and the rows carry the
analyzed records in order. -/
theorem report_spec (analyzed : List AnalyzedJobRecord) :
    (analyzed = [] → build_report analyzed = none) ∧
    (analyzed ≠ [] →
      build_report analyzed = some (number_rows 1 analyzed) ∧
      (number_rows 1 analyzed).length = analyzed.length ∧
      (number_rows 1 analyzed).map Prod.fst = List.range' 1 analyzed.length ∧
      (number_rows 1 analyzed).map Prod.snd = analyzed) := by
  constructor
  · intro h
    subst h
    rfl
  · intro h
    refine ⟨?_, number_rows_length analyzed 1, number_rows_fst analyzed 1,
      number_rows_snd analyzed 1⟩
    unfold build_report
    rw [if_neg]
    simpa using h

/-- Witness for C9 at the empty list and a one-record list. -/
theorem report_spec_witness :
    build_report [] = none ∧
    build_report [create_fallback_analysis job_a]
      = some (number_rows 1 [create_fallback_analysis job_a]) :=
  ⟨(report_spec []).1 rfl,
   ((report_spec [create_fallback_analysis job_a]).2 (List.cons_ne_nil _ _)).1⟩

/-! ## Phase-3 skip condition (C4) -/

/-- C4 counterexample: a fetch that successfully returns the empty string —
it does not return "nothing at all" — still causes the job to be skipped,
because `if not description` is also true for the empty string. -/
theorem empty_description_skips_job :
    (fun _ : String => some "") job_a.url ≠ none ∧
    process_one_job (fun _ => some "") create_fallback_analysis job_a = none :=
  ⟨by simp, rfl⟩

/-- C4 amended: a unique job is skipped before analysis exactly when the
description fetch returns Python `None` or the empty string; in particular a
fetch returning the failure sentinel is still analyzed, with the sentinel
attached as the description. -/
theorem skip_condition_spec (fetchD : String → Option String)
    (analyzeF : BasicJobRecord → AnalyzedJobRecord) (job : BasicJobRecord) :
    (process_one_job fetchD analyzeF job = none ↔
      fetchD job.url = none ∨ fetchD job.url = some "") ∧
    (fetchD job.url = some fail_sentinel →
      process_one_job fetchD analyzeF job
        = some (analyzeF { job with description := some fail_sentinel })) := by
  constructor
  · unfold process_one_job
    cases h : fetchD job.url with
    | none => simp
    | some d =>
      by_cases hd : d = "" <;> simp [hd]
  · intro h
    unfold process_one_job
    rw [h]
    exact if_neg (by decide)

/-- Witness for C4's amended claim: a sentinel-returning fetch leads to
analysis, a `None`-returning fetch leads to a skip. -/
theorem skip_condition_spec_witness :
    process_one_job (fun _ => some fail_sentinel) create_fallback_analysis job_b
      = some (create_fallback_analysis { job_b with description := some fail_sentinel }) ∧
    process_one_job (fun _ => none) create_fallback_analysis job_b = none :=
  ⟨(skip_condition_spec (fun _ => some fail_sentinel) create_fallback_analysis job_b).2 rfl,
   (skip_condition_spec (fun _ => none) create_fallback_analysis job_b).1.mpr (Or.inl rfl)⟩

/-! ## Match Analyzer: fallback (C1) -/

/-- C1: whenever the Match Analyzer fails — the oracle call raised, JSON
parsing failed even after fence recovery, or a required field is missing —
`analyze_with_gpt` returns exactly the fallback record, with the identity
fields copied from the input; the fallback constructor is a total function,
so this path cannot raise.  The first conjunct covers every failure (any
exception reaching line 174 is `try_analyze = none`); the remaining
conjuncts show the three named failure modes each produce such a failure. -/
theorem analyzer_fallback_spec (parse : String → Option JVal)
    (oracle : Except Unit String) (job : BasicJobRecord) :
    (try_analyze parse oracle job = none →
       analyze_with_gpt parse oracle job =
         { search_category := job.search_category, title := job.title,
           company := job.company, location := job.location, url := job.url,
           match_score := .jnum 0, german_required := .jstr "No",
           key_matches := "Analysis failed", missing_skills := "Analysis failed",
           recommendation := .jstr "Analysis failed - please review manually" }) ∧
    (oracle = .error () → try_analyze parse oracle job = none) ∧
    (∀ resp, oracle = .ok resp → parse_response parse (pyStrip resp) = none →
       try_analyze parse oracle job = none) ∧
    (∀ resp fields, oracle = .ok resp →
       parse_response parse (pyStrip resp) = some (.jobj fields) →
       (required_fields.all (fun f => (jlookup fields f).isSome)) = false →
       try_analyze parse oracle job = none) := by
  refine ⟨?_, ?_, ?_, ?_⟩
  · intro h
    unfold analyze_with_gpt
    rw [h]
    rfl
  · intro h
    subst h
    rfl
  · intro resp h hp
    subst h
    simp only [try_analyze, hp]
  · intro resp fields h hp hf
    subst h
    simp only [try_analyze, hp, analyze_from_result, hf, Bool.false_eq_true, if_false]

/-- Witness for C1 with an erroring oracle. -/
theorem analyzer_fallback_spec_witness :
    analyze_with_gpt (fun _ => none) (.error ()) job_a =
      { search_category := job_a.search_category, title := job_a.title,
        company := job_a.company, location := job_a.location, url := job_a.url,
        match_score := .jnum 0, german_required := .jstr "No",
        key_matches := "Analysis failed", missing_skills := "Analysis failed",
        recommendation := .jstr "Analysis failed - please review manually" } ∧
    try_analyze (fun _ => none) (.error ()) job_a = none :=
  ⟨(analyzer_fallback_spec (fun _ => none) (.error ()) job_a).1 rfl,
   (analyzer_fallback_spec (fun _ => none) (.error ()) job_a).2.1 rfl⟩

/-! ## Match Analyzer: success path (C7) -/

theorem join_strings_map_jstr (l : List String) :
    join_strings (l.map JVal.jstr) = some l := by
  induction l with
  | nil => rfl
  | cons s rest ih => simp [join_strings, ih]

theorem pyJoin_jarr_strings (l : List String) :
    pyJoin "; " (.jarr (l.map JVal.jstr)) = some (String.intercalate "; " l) := by
  simp [pyJoin, join_strings_map_jstr]

/-- C7: when the oracle response parses as a JSON object carrying all five
required fields, with `key_matches` / `missing_skills` arrays of strings,
`analyze_with_gpt` returns the record with those two arrays joined by
"; " and `match_score` / `german_required` (and `recommendation`) passed
through unchanged, identity fields copied from the job. -/
theorem analyzer_success_spec (parse : String → Option JVal) (resp : String)
    (fields : List (String × JVal)) (job : BasicJobRecord)
    (ms gr rc : JVal) (km mi : List String)
    (hp : parse (pyStrip resp) = some (.jobj fields))
    (h1 : jlookup fields "match_score" = some ms)
    (h2 : jlookup fields "german_required" = some gr)
    (h3 : jlookup fields "key_matches" = some (.jarr (km.map JVal.jstr)))
    (h4 : jlookup fields "missing_skills" = some (.jarr (mi.map JVal.jstr)))
    (h5 : jlookup fields "recommendation" = some rc) :
    analyze_with_gpt parse (.ok resp) job =
      { search_category := job.search_category, title := job.title,
        company := job.company, location := job.location, url := job.url,
        match_score := ms, german_required := gr,
        key_matches := String.intercalate "; " km,
        missing_skills := String.intercalate "; " mi,
        recommendation := rc } := by
  have e1 : parse_response parse (pyStrip resp) = some (.jobj fields) := by
    unfold parse_response
    rw [hp]
  have hall : required_fields.all (fun f => (jlookup fields f).isSome) = true := by
    simp [required_fields, h1, h2, h3, h4, h5]
  have e2 : analyze_from_result (.jobj fields) job =
      some { search_category := job.search_category, title := job.title,
             company := job.company, location := job.location, url := job.url,
             match_score := ms, german_required := gr,
             key_matches := String.intercalate "; " km,
             missing_skills := String.intercalate "; " mi,
             recommendation := rc } := by
    simp only [analyze_from_result, hall, if_true, h1, h2, h3, h4, h5, pyJoin_jarr_strings]
  simp only [analyze_with_gpt, try_analyze, e1, e2]

/-- A concrete parsed oracle object for the C7 witness. -/
def fields1 : List (String × JVal) :=
  [("match_score", .jnum 77), ("german_required", .jstr "Yes"),
   ("key_matches", .jarr [.jstr "python", .jstr "sql"]),
   ("missing_skills", .jarr []),
   ("recommendation", .jstr "apply")]

/-- Witness for C7 on `fields1`. -/
theorem analyzer_success_spec_witness :
    analyze_with_gpt (fun _ => some (.jobj fields1)) (.ok "resp") job_a =
      { search_category := job_a.search_category, title := job_a.title,
        company := job_a.company, location := job_a.location, url := job_a.url,
        match_score := .jnum 77, german_required := .jstr "Yes",
        key_matches := String.intercalate "; " ["python", "sql"],
        missing_skills := String.intercalate "; " [],
        recommendation := .jstr "apply" } :=
  analyzer_success_spec (fun _ => some (.jobj fields1)) "resp" fields1 job_a
    (.jnum 77) (.jstr "Yes") (.jstr "apply") ["python", "sql"] []
    rfl rfl rfl rfl rfl rfl

/-! ## Report score range (C3) -/

/-- A successful field-validation pass copies `match_score` verbatim from
the parsed object into the analyzed record. -/
theorem analyze_from_result_score (fs : List (String × JVal)) (job : BasicJobRecord)
    (r : AnalyzedJobRecord) (h : analyze_from_result (.jobj fs) job = some r) :
    jlookup fs "match_score" = some r.match_score := by
  cases hms : jlookup fs "match_score" with
  | none =>
    exfalso
    have hall : required_fields.all (fun f => (jlookup fs f).isSome) = false := by
      simp [required_fields, hms]
    simp only [analyze_from_result, hall, Bool.false_eq_true, if_false] at h
    exact Option.noConfusion h
  | some ms =>
  cases hgr : jlookup fs "german_required" with
  | none =>
    exfalso
    have hall : required_fields.all (fun f => (jlookup fs f).isSome) = false := by
      simp [required_fields, hgr]
    simp only [analyze_from_result, hall, Bool.false_eq_true, if_false] at h
    exact Option.noConfusion h
  | some gr =>
  cases hkm : jlookup fs "key_matches" with
  | none =>
    exfalso
    have hall : required_fields.all (fun f => (jlookup fs f).isSome) = false := by
      simp [required_fields, hkm]
    simp only [analyze_from_result, hall, Bool.false_eq_true, if_false] at h
    exact Option.noConfusion h
  | some km =>
  cases hmi : jlookup fs "missing_skills" with
  | none =>
    exfalso
    have hall : required_fields.all (fun f => (jlookup fs f).isSome) = false := by
      simp [required_fields, hmi]
    simp only [analyze_from_result, hall, Bool.false_eq_true, if_false] at h
    exact Option.noConfusion h
  | some mi =>
  cases hrc : jlookup fs "recommendation" with
  | none =>
    exfalso
    have hall : required_fields.all (fun f => (jlookup fs f).isSome) = false := by
      simp [required_fields, hrc]
    simp only [analyze_from_result, hall, Bool.false_eq_true, if_false] at h
    exact Option.noConfusion h
  | some rc =>
  have hall : required_fields.all (fun f => (jlookup fs f).isSome) = true := by
    simp [required_fields, hms, hgr, hkm, hmi, hrc]
  simp only [analyze_from_result, hall, if_true, hms, hgr, hkm, hmi, hrc] at h
  cases hj1 : pyJoin "; " km with
  | none => rw [hj1] at h; simp at h
  | some kmS =>
  cases hj2 : pyJoin "; " mi with
  | none => rw [hj1, hj2] at h; simp at h
  | some rcS =>
  rw [hj1, hj2] at h
  have hr2 : r.match_score = ms := by
    have hrec := Option.some_inj.mp h
    rw [← hrec]
  rw [hr2]

/-- Every analyzed record's `match_score` is either the fallback `0` or a
value read verbatim out of an object returned by the JSON parser: the code
performs no range validation. -/
theorem analyze_score_cases (parse : String → Option JVal)
    (oracle : Except Unit String) (job : BasicJobRecord) :
    (analyze_with_gpt parse oracle job).match_score = .jnum 0 ∨
    ∃ t fs, parse t = some (.jobj fs) ∧
      jlookup fs "match_score" = some ((analyze_with_gpt parse oracle job).match_score) := by
  cases h : try_analyze parse oracle job with
  | none =>
    left
    simp only [analyze_with_gpt, h]
    rfl
  | some r =>
    right
    have hr : analyze_with_gpt parse oracle job = r := by
      simp only [analyze_with_gpt, h]
    rw [hr]
    cases oracle with
    | error e => simp [try_analyze] at h
    | ok resp =>
      simp only [try_analyze] at h
      cases hpres : parse_response parse (pyStrip resp) with
      | none => rw [hpres] at h; simp at h
      | some result =>
        rw [hpres] at h
        have hsource : ∃ t, parse t = some result := by
          cases hp1 : parse (pyStrip resp) with
          | some v =>
            simp only [parse_response, hp1] at hpres
            exact ⟨pyStrip resp, by rw [hp1, hpres]⟩
          | none =>
            simp only [parse_response, hp1] at hpres
            exact ⟨clean_response (pyStrip resp), hpres⟩
        obtain ⟨t, hparse⟩ := hsource
        cases result with
        | jobj fs => exact ⟨t, fs, hparse, analyze_from_result_score fs job r h⟩
        | jnull => simp [analyze_from_result] at h
        | jbool b => simp [analyze_from_result] at h
        | jnum n => simp [analyze_from_result] at h
        | jstr s => simp [analyze_from_result] at h
        | jarr xs => simp [analyze_from_result] at h

/-- Oracle object carrying an out-of-range score, for the C3
counterexample. -/
def fields150 : List (String × JVal) :=
  [("match_score", .jnum 150), ("german_required", .jstr "No"),
   ("key_matches", .jarr []), ("missing_skills", .jarr []),
   ("recommendation", .jstr "r")]

/-- The report row the pipeline produces from `fields150`. -/
def r150 : AnalyzedJobRecord :=
  { search_category := "strategy", title := "t1", company := "co",
    location := "Berlin", url := "u1", match_score := .jnum 150,
    german_required := .jstr "No", key_matches := "", missing_skills := "",
    recommendation := .jstr "r" }

/-- C3 counterexample: an oracle answering with `match_score = 150` puts a
row with `match_score = 150` — outside `[0, 100]` — into the final report;
the code performs no clamping or validation. -/
theorem match_score_range_counterexample :
    build_report
        (phase3 (fun _ => some "desc")
          (fun j => analyze_with_gpt (fun _ => some (.jobj fields150)) (.ok "resp") j)
          [job_a])
      = some (number_rows 1 [r150]) ∧
    r150.match_score = JVal.jnum 150 ∧ ¬ score_in_range r150.match_score := by
  refine ⟨rfl, rfl, ?_⟩
  rintro ⟨n, hn, h0, h1⟩
  have : n = 150 := by
    have := hn
    simp [r150] at this
    omega
  omega

/-- C3 amended: a report row's `match_score` is the oracle's value passed
through unchanged (or the fallback `0`); consequently it lies in `[0, 100]`
exactly when the parser only ever yields objects whose `match_score` lies in
`[0, 100]` — the code itself never validates or clamps the value. -/
theorem match_score_range_amended (parse : String → Option JVal)
    (oracle : BasicJobRecord → Except Unit String) (fetchD : String → Option String)
    (jobs : List BasicJobRecord) (rows : List (Nat × AnalyzedJobRecord))
    (Hparse : ∀ t fs v, parse t = some (.jobj fs) →
        jlookup fs "match_score" = some v → score_in_range v)
    (hrows : build_report (phase3 fetchD (fun j => analyze_with_gpt parse (oracle j) j) jobs)
        = some rows) :
    ∀ pr ∈ rows, score_in_range pr.2.match_score := by
  intro pr hpr
  unfold build_report at hrows
  split at hrows
  · exact absurd hrows (by simp)
  · have hrows2 := Option.some_inj.mp hrows
    rw [← hrows2] at hpr
    have hmem : pr.2 ∈ phase3 fetchD (fun j => analyze_with_gpt parse (oracle j) j) jobs :=
      number_rows_mem_snd _ 1 pr hpr
    unfold phase3 at hmem
    rcases List.mem_filterMap.mp hmem with ⟨j, _, hj⟩
    cases hf : fetchD j.url with
    | none =>
      simp only [process_one_job, hf] at hj
      exact Option.noConfusion hj
    | some d =>
      simp only [process_one_job, hf] at hj
      by_cases hd : d = ""
      · rw [if_pos hd] at hj; simp at hj
      · rw [if_neg hd] at hj
        have hj2 := Option.some_inj.mp hj
        rcases analyze_score_cases parse (oracle { j with description := some d })
            { j with description := some d } with hzero | ⟨t, fs, hp, hl⟩
        · rw [hj2] at hzero
          exact ⟨0, hzero, le_refl 0, by norm_num⟩
        · rw [hj2] at hl
          exact Hparse t fs _ hp hl

/-- Oracle object with an in-range score, for the C3 witness. -/
def fieldsW : List (String × JVal) :=
  [("match_score", .jnum 50), ("german_required", .jstr "No"),
   ("key_matches", .jarr []), ("missing_skills", .jarr []),
   ("recommendation", .jstr "r")]

/-- The report row produced from `fieldsW`. -/
def recW : AnalyzedJobRecord :=
  { search_category := "strategy", title := "t1", company := "co",
    location := "Berlin", url := "u1", match_score := .jnum 50,
    german_required := .jstr "No", key_matches := "", missing_skills := "",
    recommendation := .jstr "r" }

/-- Witness for C3's amended claim with a well-behaved concrete parser. -/
theorem match_score_range_amended_witness : score_in_range (1, recW).2.match_score :=
  match_score_range_amended (fun _ => some (.jobj fieldsW))
    (fun _ => .ok "resp") (fun _ => some "desc") [job_a] (number_rows 1 [recW])
    (by
      intro t fs v h1 h2
      have hfs : JVal.jobj fieldsW = JVal.jobj fs := Option.some_inj.mp h1
      have hfs2 : fs = fieldsW := by
        cases hfs
        rfl
      subst hfs2
      have hv : v = JVal.jnum 50 :=
        (Option.some_inj.mp
          (Eq.trans (rfl : some (JVal.jnum 50) = jlookup fieldsW "match_score") h2)).symm
      exact ⟨50, by rw [hv], by norm_num, by norm_num⟩)
    rfl (1, recW) (List.mem_singleton.mpr rfl)

/-! ## Code-fence recovery (C8): string lemmas

The backtick character is written `'\x60'` below. -/

theorem string_data_ext {a b : String} (h : a.data = b.data) : a = b := by
  cases a
  cases b
  exact congrArg String.mk h

theorem dropWhile_cons_of_false {c : Char} {t : List Char} (h : pyIsSpace c = false) :
    (c :: t).dropWhile pyIsSpace = c :: t := by
  rw [List.dropWhile_cons, h]
  simp

theorem dropWhile_cons_of_true {c : Char} {t : List Char} (h : pyIsSpace c = true) :
    (c :: t).dropWhile pyIsSpace = t.dropWhile pyIsSpace := by
  rw [List.dropWhile_cons, h]
  simp

theorem head_not_space {c : Char} {t : List Char}
    (h : (c :: t).dropWhile pyIsSpace = c :: t) : pyIsSpace c = false := by
  cases hx : pyIsSpace c with
  | false => rfl
  | true =>
    rw [dropWhile_cons_of_true hx] at h
    have hle : (t.dropWhile pyIsSpace).length ≤ t.length :=
      (List.dropWhile_sublist pyIsSpace).length_le
    rw [h] at hle
    simp only [List.length_cons] at hle
    omega

theorem pyStripList_id {X : List Char} (hhead : X.dropWhile pyIsSpace = X)
    (hlast : X.reverse.dropWhile pyIsSpace = X.reverse) : pyStripList X = X := by
  unfold pyStripList
  rw [hhead, hlast, List.reverse_reverse]

/-- Stripping the already-trimmed fenced response changes nothing: it starts
and ends with a backtick. -/
theorem pyStrip_fenced (s : String) :
    pyStrip ("```json\n" ++ s ++ "\n```") = "```json\n" ++ s ++ "\n```" := by
  apply string_data_ext
  show pyStripList ("```json\n" ++ s ++ "\n```").data = ("```json\n" ++ s ++ "\n```").data
  have hWd : ("```json\n" ++ s ++ "\n```").data
      = '\x60' :: ('\x60' :: ('\x60' :: ('j' :: ('s' :: ('o' :: ('n' :: ('\n' ::
          (s.data ++ "\n```".data)))))))) := by
    simp [List.append_assoc]
  have hWrev : ("```json\n" ++ s ++ "\n```").data.reverse
      = '\x60' :: ('\x60' :: ('\x60' :: ('\n' ::
          (s.data.reverse ++ "```json\n".data.reverse)))) := by
    simp [List.reverse_append, List.append_assoc]
  apply pyStripList_id
  · rw [hWd]
    exact dropWhile_cons_of_false (by decide)
  · rw [hWrev]
    exact dropWhile_cons_of_false (by decide)

/-- The fenced response starts with the seven-character prefix the code
tests for. -/
theorem pyStartswith_fenced (s : String) :
    pyStartswith ("```json\n" ++ s ++ "\n```") "```json" = true := by
  unfold pyStartswith
  rw [List.isPrefixOf_iff_prefix]
  simp only [String.data_append]
  rw [show (['\x60', '\x60', '\x60', 'j', 's', 'o', 'n', '\n'] : List Char)
      = ['\x60', '\x60', '\x60', 'j', 's', 'o', 'n'] ++ ['\n'] from rfl]
  simp only [List.append_assoc]
  exact List.prefix_append _ _

/-- Python's `cleaned_response[7:]` on the fenced response removes exactly
the leading fence. -/
theorem pyDropLeft_fenced (s : String) :
    pyDropLeft ("```json\n" ++ s ++ "\n```") 7
      = ⟨'\n' :: (s.data ++ "\n```".data)⟩ := by
  apply string_data_ext
  show ("```json\n" ++ s ++ "\n```").data.drop 7 = '\n' :: (s.data ++ "\n```".data)
  simp only [String.data_append, List.append_assoc]
  rfl

/-- After the leading fence is gone the text still ends in three
backticks. -/
theorem pyEndswith_fenced (s : String) :
    pyEndswith ⟨'\n' :: (s.data ++ "\n```".data)⟩ "```" = true := by
  unfold pyEndswith
  rw [List.isSuffixOf_iff_suffix]
  show "```".data <:+ '\n' :: (s.data ++ "\n```".data)
  rw [show "\n```".data = '\n' :: "```".data from by decide]
  have hsplit : '\n' :: (s.data ++ ('\n' :: "```".data))
      = (('\n' :: s.data) ++ ['\n']) ++ "```".data := by
    simp
  rw [hsplit]
  exact List.suffix_append _ _

/-- Python's `cleaned_response[:-3]` removes exactly the trailing fence. -/
theorem pyDropRight_fenced (s : String) :
    pyDropRight ⟨'\n' :: (s.data ++ "\n```".data)⟩ 3
      = ⟨'\n' :: (s.data ++ ['\n'])⟩ := by
  apply string_data_ext
  show (('\n' :: (s.data ++ "\n```".data)).reverse.drop 3).reverse
      = '\n' :: (s.data ++ ['\n'])
  rw [show "\n```".data = '\n' :: "```".data from by decide]
  have hsplit : '\n' :: (s.data ++ ('\n' :: "```".data))
      = (('\n' :: s.data) ++ ['\n']) ++ "```".data := by
    simp
  rw [hsplit, List.reverse_append]
  rw [show "```".data.reverse = ['\x60', '\x60', '\x60'] from by decide]
  rw [show (['\x60', '\x60', '\x60'] ++ (('\n' :: s.data) ++ ['\n']).reverse).drop 3
      = (('\n' :: s.data) ++ ['\n']).reverse from rfl]
  rw [List.reverse_reverse]
  simp

/-- The final strip of the recovery peels the two newlines left by the
fences, recovering the bare trimmed payload. -/
theorem pyStrip_after_fences (s : String)
    (h1 : s.data.dropWhile pyIsSpace = s.data)
    (h2 : s.data.reverse.dropWhile pyIsSpace = s.data.reverse)
    (hne : s.data ≠ []) :
    pyStrip ⟨'\n' :: (s.data ++ ['\n'])⟩ = s := by
  apply string_data_ext
  show pyStripList ('\n' :: (s.data ++ ['\n'])) = s.data
  obtain ⟨c, t, hL⟩ : ∃ c t, s.data = c :: t := by
    cases hsd : s.data with
    | nil => exact absurd hsd hne
    | cons c t => exact ⟨c, t, rfl⟩
  have hc : pyIsSpace c = false := head_not_space (by rw [hL] at h1; exact h1)
  rw [hL] at h2 ⊢
  unfold pyStripList
  rw [dropWhile_cons_of_true (by decide), List.cons_append,
    dropWhile_cons_of_false hc, ← List.cons_append, List.reverse_append]
  rw [show (['\n'] : List Char).reverse = ['\n'] from rfl]
  rw [show (['\n'] : List Char) ++ (c :: t).reverse = '\n' :: (c :: t).reverse from rfl]
  rw [dropWhile_cons_of_true (by decide), h2, List.reverse_reverse]

/-- The whole recovery of src/main.py 144-149 on a fenced payload. -/
theorem clean_response_fenced (s : String)
    (h1 : s.data.dropWhile pyIsSpace = s.data)
    (h2 : s.data.reverse.dropWhile pyIsSpace = s.data.reverse)
    (hne : s.data ≠ []) :
    clean_response ("```json\n" ++ s ++ "\n```") = s := by
  simp only [clean_response]
  rw [pyStrip_fenced, if_pos (pyStartswith_fenced s), pyDropLeft_fenced,
    if_pos (pyEndswith_fenced s), pyDropRight_fenced]
  exact pyStrip_after_fences s h1 h2 hne

/-- C8: for a trimmed, non-empty payload `s` that parses as JSON, if the
oracle instead returns `s` wrapped in a three-backtick json code fence — so
that the direct parse fails — the recovery strips the fence, the re-parse
succeeds, and the analysis result is exactly the one the bare payload would
have produced. -/
theorem fence_recovery_spec (parse : String → Option JVal) (s : String) (v : JVal)
    (job : BasicJobRecord)
    (h1 : s.data.dropWhile pyIsSpace = s.data)
    (h2 : s.data.reverse.dropWhile pyIsSpace = s.data.reverse)
    (hne : s.data ≠ [])
    (hwrap : parse ("```json\n" ++ s ++ "\n```") = none)
    (hbare : parse s = some v) :
    analyze_with_gpt parse (.ok ("```json\n" ++ s ++ "\n```")) job
      = analyze_with_gpt parse (.ok s) job := by
  have hss : pyStrip s = s := by
    apply string_data_ext
    show pyStripList s.data = s.data
    exact pyStripList_id h1 h2
  have hpr1 : parse_response parse (pyStrip ("```json\n" ++ s ++ "\n```")) = some v := by
    rw [pyStrip_fenced]
    simp only [parse_response, hwrap, clean_response_fenced s h1 h2 hne, hbare]
  have hpr2 : parse_response parse (pyStrip s) = some v := by
    rw [hss]
    simp only [parse_response, hbare]
  simp only [analyze_with_gpt, try_analyze, hpr1, hpr2]

/-- Witness for C8 with the payload `"\x7b\x7d"` (the two-character empty
JSON object) and a parser accepting exactly that payload. -/
theorem fence_recovery_spec_witness :
    analyze_with_gpt (fun t => if t = "\x7b\x7d" then some (.jobj []) else none)
        (.ok ("```json\n" ++ "\x7b\x7d" ++ "\n```")) job_a
      = analyze_with_gpt (fun t => if t = "\x7b\x7d" then some (.jobj []) else none)
        (.ok "\x7b\x7d") job_a :=
  fence_recovery_spec (fun t => if t = "\x7b\x7d" then some (.jobj []) else none)
    "\x7b\x7d" (.jobj []) job_a (by decide) (by decide) (by decide)
    (by
      show (if ("```json\n" ++ "\x7b\x7d" ++ "\n```" : String) = "\x7b\x7d"
          then some (JVal.jobj []) else none) = none
      rw [if_neg (by decide)])
    (by
      show (if ("\x7b\x7d" : String) = "\x7b\x7d"
          then some (JVal.jobj []) else none) = some (JVal.jobj [])
      rw [if_pos rfl])

end ArbeitNow
